import Mathlib

/-!
Shallow embedding of the LightNVM FTL core (drivers/md/lightnvm/core.c):
translation maps, per-pool block lifecycle, the append-point physical
allocator, and the read/write/completion pipeline fragments, together with
theorems about them.

Machine words are modelled as `Nat`; the sentinel `LTOP_EMPTY` becomes
`Option.none` on returned addresses, and `LTOP_POISON` becomes the
`rev_target.poison` constructor of the reverse-map entry.  Bitmaps are
modelled as the `Finset` of set bit positions.  Kernel logging, timing
(`udelay`, `getnstimeofday`), locks (taken and released inside each
modelled critical section) and mempool bookkeeping have no state of their
own here; `BUG_ON` caller contracts appear as hypotheses of the theorems,
and paths on which the C code would dereference a NULL pointer are made
explicit as a `fault` result.
-/

namespace LightNVM

/-- Configuration constants of one FTL instance: the relevant fields of
`struct nvmd` plus the compile-time constants of the (missing) header
`lightnvm.h`, which the spec enumerates in its configuration section. -/
structure nvmd_config where
  nr_pages : Nat
  nr_aps : Nat
  nr_host_pages_in_blk : Nat
  nr_host_pages_in_flash_page : Nat
  nr_pages_per_blk : Nat
  nr_phy_in_log : Nat
  deriving DecidableEq

/-- One erase block, `struct nvm_block`: write cursors, the invalid-page
bitmap (as the set of set bit positions), counters, the GC flag, whether
the staging buffer `data` is currently allocated, and the back reference
to the append point writing the block (`ap`), as an AP index. -/
structure nvm_block where
  next_page : Nat
  next_offset : Nat
  invalid_pages : Finset Nat
  nr_invalid_pages : Nat
  gc_running : Bool
  data_size : Nat
  data_cmnt_size : Nat
  data : Bool
  ap : Option Nat
  deriving DecidableEq

/-- A forward translation entry, `struct nvm_addr`: physical address and
owning block (block reference modelled as a block index, `none` when the
logical address has never been written). -/
structure nvm_addr_t where
  addr : Nat
  block : Option Nat
  deriving DecidableEq

/-- The value stored in the `addr` field of a reverse entry: either the
owning logical address or the `LTOP_POISON` sentinel. -/
inductive rev_target where
  | poison
  | logical (l : Nat)
  deriving DecidableEq

/-- A reverse translation entry, `struct nvm_rev_addr`: logical address
(or poison) plus the identity of the translation map that owns the
forward entry, modelled as a numeric tag standing for the map pointer. -/
structure nvm_rev_addr where
  addr : rev_target
  trans_map_tag : Option Nat
  deriving DecidableEq

/-- The state touched by the modelled operations: the block store (by
block index), one pool's lists and counter, one append point's current
and GC blocks, the forward map being operated on and the global reverse
map, the set of currently locked logical addresses, the deferred-bio
queue (by sector), and whether GC has been kicked. -/
structure ftl_state where
  cfg : nvmd_config
  blocks : Nat → nvm_block
  free_list : List Nat
  used_list : List Nat
  prio_list : List Nat
  nr_free_blocks : Nat
  ap_cur : Nat
  ap_gc_cur : Option Nat
  trans_map : Nat → nvm_addr_t
  rev_trans_map : Nat → nvm_rev_addr
  locked_addrs : Finset Nat
  deferred_bios : List Nat
  gc_kicked : Bool

/-- Modelled from the spec: `block_is_full` is declared in the missing
header `lightnvm.h`; the spec says it returns true when `next_page` has
reached the block's page count (flash pages per block). -/
def block_is_full (cfg : nvmd_config) (b : nvm_block) : Bool :=
  decide (cfg.nr_pages_per_blk ≤ b.next_page)

/-- Modelled from the spec: `block_to_addr` is declared in the missing
header `lightnvm.h`; a block covers `nr_host_pages_in_blk` consecutive
host pages, so its base physical address is its index times that span
(physical addresses are reduced `mod nr_host_pages_in_blk` to obtain the
in-block offset elsewhere in the code). -/
def block_to_addr (cfg : nvmd_config) (bid : Nat) : Nat :=
  bid * cfg.nr_host_pages_in_blk

/-- `nvm_reset_block`: zero the invalid bitmap, clear the AP back
reference, both cursors, the invalid counter, the GC flag and both data
counters.  The staging-buffer field is not touched here (the caller
allocates it afterwards). -/
def nvm_reset_block (b : nvm_block) : nvm_block :=
  { b with
    invalid_pages := ∅
    ap := none
    next_page := 0
    next_offset := 0
    nr_invalid_pages := 0
    gc_running := false
    data_size := 0
    data_cmnt_size := 0 }

/-- `invalidate_block_page`: set bit `addr mod nr_host_pages_in_blk` in
the block's bitmap and increment `nr_invalid_pages`.  The returned flag
is the value of `test_and_set_bit` reported by `WARN_ON`, i.e. whether
the bit was already set (the detected double-invalidation). -/
def invalidate_block_page (cfg : nvmd_config) (paddr : Nat) (b : nvm_block) :
    nvm_block × Bool :=
  let off := paddr % cfg.nr_host_pages_in_blk
  ({ b with
      invalid_pages := insert off b.invalid_pages
      nr_invalid_pages := b.nr_invalid_pages + 1 },
   decide (off ∈ b.invalid_pages))

/-- `__nvm_alloc_phys_addr`: if the block is full return `LTOP_EMPTY`
(`none`); if `next_offset` has saturated at
`nr_host_pages_in_flash_page`, consult the optional page-special
predicate for the next flash page (rejecting yields `LTOP_EMPTY` with the
block unchanged) and otherwise reset the offset and advance `next_page`;
then return base + `next_page * nr_host_pages_in_flash_page` +
`next_offset` and advance `next_offset`. -/
def __nvm_alloc_phys_addr (cfg : nvmd_config) (bid : Nat) (b : nvm_block)
    (ps : Option (Nat → Bool)) : Option Nat × nvm_block :=
  if block_is_full cfg b then (none, b)
  else
    let rolled : Option nvm_block :=
      if b.next_offset = cfg.nr_host_pages_in_flash_page then
        match ps with
        | some f =>
            if f (b.next_page + 1) then
              some { b with next_offset := 0, next_page := b.next_page + 1 }
            else none
        | none => some { b with next_offset := 0, next_page := b.next_page + 1 }
      else some b
    match rolled with
    | none => (none, b)
    | some b1 =>
        (some (block_to_addr cfg bid +
                b1.next_page * cfg.nr_host_pages_in_flash_page +
                b1.next_offset),
         { b1 with next_offset := b1.next_offset + 1 })

/-- `nvm_alloc_phys_addr`: the default-path allocator, no page-special
predicate. -/
def nvm_alloc_phys_addr (cfg : nvmd_config) (bid : Nat) (b : nvm_block) :
    Option Nat × nvm_block :=
  __nvm_alloc_phys_addr cfg bid b none

/-- `nvm_alloc_phys_addr_special`: the allocator with a page-special
predicate supplied (hints extension). -/
def nvm_alloc_phys_addr_special (cfg : nvmd_config) (bid : Nat)
    (b : nvm_block) (ps : Option (Nat → Bool)) : Option Nat × nvm_block :=
  __nvm_alloc_phys_addr cfg bid b ps

/-- `nvm_alloc_phys_addr` lifted to the state's block store. -/
def nvm_alloc_phys_addr_st (bid : Nat) (s : ftl_state) :
    Option Nat × ftl_state :=
  let r := nvm_alloc_phys_addr s.cfg bid (s.blocks bid)
  (r.1, { s with blocks := fun i => if i = bid then r.2 else s.blocks i })

/-- `nvm_pool_get_block`: under the pool lock, fail on an empty
`free_list`; refuse a non-GC request while `nr_free_blocks < nr_aps`
(the `while` in the source runs at most once, its body returns);
otherwise pop the front of `free_list`, move it to the back of
`used_list`, decrement `nr_free_blocks`, then (after releasing the lock)
`nvm_reset_block` the block and allocate its staging buffer.  The
counter is a `Nat` here; the decrement is exercised only when the free
list, and with it the counter, is nonzero. -/
def nvm_pool_get_block (is_gc : Bool) (s : ftl_state) :
    Option Nat × ftl_state :=
  match s.free_list with
  | [] => (none, s)
  | b :: rest =>
      if is_gc = false ∧ s.nr_free_blocks < s.cfg.nr_aps then (none, s)
      else
        let blk := { nvm_reset_block (s.blocks b) with data := true }
        (some b,
          { s with
            free_list := rest
            used_list := s.used_list ++ [b]
            nr_free_blocks := s.nr_free_blocks - 1
            blocks := fun i => if i = b then blk else s.blocks i })

/-- `nvm_pool_put_block`: `list_move_tail` unlinks `block->list` from
whichever of `free_list`/`used_list` currently holds it (a block's list
node sits on exactly one of the two) and appends it to the back of
`free_list`; `nr_free_blocks` is incremented. -/
def nvm_pool_put_block (b : Nat) (s : ftl_state) : ftl_state :=
  { s with
    free_list := s.free_list.erase b ++ [b]
    used_list := s.used_list.erase b
    nr_free_blocks := s.nr_free_blocks + 1 }

/-- `nvm_set_ap_cur`: clear the outgoing current block's AP back
reference (the source also warns if it is not full) and install the new
block as `ap->cur` with `block->ap = ap`; the single modelled append
point has index `0`. -/
def nvm_set_ap_cur (bid : Nat) (s : ftl_state) : ftl_state :=
  let s1 :=
    { s with
      blocks := fun i =>
        if i = s.ap_cur then { s.blocks s.ap_cur with ap := none }
        else s.blocks i }
  { s1 with
    ap_cur := bid
    blocks := fun i =>
      if i = bid then { s1.blocks bid with ap := some 0 } else s1.blocks i }

/-- Outcome of `nvm_alloc_addr_from_ap`: `failure` is the C `NULL`
return, `success` carries the filled `nvm_addr` contents, and `fault` is
a path on which the C code dereferences a NULL pointer. -/
inductive ap_alloc_result where
  | fault
  | failure
  | success (addr : Nat) (blk : Option Nat)
  deriving DecidableEq

/-- `nvm_alloc_addr_from_ap`: try `alloc_phys` on `ap->cur`; on
`LTOP_EMPTY` request a block with `is_gc=0` and, if one arrives, install
it via `nvm_set_ap_cur` and retry; otherwise, when `is_gc`, try
`alloc_phys(ap->gc_cur)` (a NULL `gc_cur` is dereferenced:
`fault`) and on `LTOP_EMPTY` request a block with `is_gc=1`, store it
into `ap->gc_cur`, and immediately execute `ap->gc_cur->ap = ap` —
before the NULL check, so a failed request is dereferenced: `fault`.
At `finished`, `LTOP_EMPTY` yields the NULL return (`failure`).  The
`nvm_addr` handle allocation from the mempool is assumed to succeed. -/
def nvm_alloc_addr_from_ap (is_gc : Bool) (s : ftl_state) :
    ap_alloc_result × ftl_state :=
  let r0 := nvm_alloc_phys_addr_st s.ap_cur s
  match r0.1 with
  | some addr => (ap_alloc_result.success addr (some s.ap_cur), r0.2)
  | none =>
      let r1 := nvm_pool_get_block false r0.2
      match r1.1 with
      | some nb =>
          let s2 := nvm_set_ap_cur nb r1.2
          let r2 := nvm_alloc_phys_addr_st nb s2
          match r2.1 with
          | some addr => (ap_alloc_result.success addr (some nb), r2.2)
          | none => (ap_alloc_result.failure, r2.2)
      | none =>
          if is_gc then
            match r1.2.ap_gc_cur with
            | none => (ap_alloc_result.fault, r1.2)
            | some g =>
                let r2 := nvm_alloc_phys_addr_st g r1.2
                match r2.1 with
                | some addr => (ap_alloc_result.success addr (some g), r2.2)
                | none =>
                    let r3 := nvm_pool_get_block true r2.2
                    let s4 := { r3.2 with ap_gc_cur := r3.1 }
                    match r3.1 with
                    | none => (ap_alloc_result.fault, s4)
                    | some b2 =>
                        let s5 :=
                          { s4 with
                            blocks := fun i =>
                              if i = b2 then { s4.blocks b2 with ap := some 0 }
                              else s4.blocks i }
                        let r4 := nvm_alloc_phys_addr_st b2 s5
                        match r4.1 with
                        | some addr =>
                            (ap_alloc_result.success addr (some b2), r4.2)
                        | none => (ap_alloc_result.failure, r4.2)
          else (ap_alloc_result.failure, r1.2)

/-- `nvm_update_map(l, p, is_gc, trans_map)`: under `rev_lock`, read the
previous forward entry; if it has a block, `invalidate_block_page` that
page in its block and poison the `addr` field of its reverse entry;
install the new forward entry `{p.addr, p.block}`; write the reverse
entry of `p.addr` to point back to `l`, tagged with the identity of the
map being updated (`tag` stands for the `trans_map` pointer stored in
`rev->trans_map`).  The `BUG_ON` range checks are caller contracts and
appear as theorem hypotheses. -/
def nvm_update_map (l : Nat) (p : nvm_addr_t) (tag : Option Nat)
    (s : ftl_state) : ftl_state :=
  let gp := s.trans_map l
  let s1 :=
    match gp.block with
    | some b0 =>
        { s with
          blocks := fun i =>
            if i = b0 then (invalidate_block_page s.cfg gp.addr (s.blocks b0)).1
            else s.blocks i
          rev_trans_map := fun a =>
            if a = gp.addr then
              { s.rev_trans_map gp.addr with addr := rev_target.poison }
            else s.rev_trans_map a }
    | none => s
  let s2 :=
    { s1 with
      trans_map := fun m =>
        if m = l then { addr := p.addr, block := p.block } else s1.trans_map m }
  { s2 with
    rev_trans_map := fun a =>
      if a = p.addr then
        { addr := rev_target.logical l, trans_map_tag := tag }
      else s2.rev_trans_map a }

/-- `nvm_lookup_ltop_map`: copy `{addr, block}` out of `map[l_addr]`;
when a block is recorded and its `gc_running` flag is set, fail (the
caller defers).  The handle allocation from the mempool is assumed to
succeed; `private` data is not modelled. -/
def nvm_lookup_ltop_map (l : Nat) (s : ftl_state) : Option nvm_addr_t :=
  let gp := s.trans_map l
  match gp.block with
  | some b => if (s.blocks b).gc_running then none else some gp
  | none => some gp

/-- Outcome of `nvm_read_bio` as observed by the bio: parked on the
deferred queue, zero-filled and completed, or submitted at the
translated physical sector. -/
inductive read_outcome where
  | deferred
  | zero_filled
  | submitted (sector : Nat)
  deriving DecidableEq

/-- `nvm_read_bio`: compute `l = sector / NR_PHY_IN_LOG`, lock `l`, and
look up the primary map.  On a failed lookup: unlock, append the bio to
the deferred queue, kick GC.  On a blockless entry (never written):
zero-fill and complete the bio, unlock.  Otherwise submit at
`p.addr * NR_PHY_IN_LOG + sector mod NR_PHY_IN_LOG`, keeping `l` locked
until completion. -/
def nvm_read_bio (sector : Nat) (s : ftl_state) : read_outcome × ftl_state :=
  let l := sector / s.cfg.nr_phy_in_log
  let s0 := { s with locked_addrs := insert l s.locked_addrs }
  match nvm_lookup_ltop_map l s0 with
  | none =>
      (read_outcome.deferred,
        { s0 with
          locked_addrs := s0.locked_addrs.erase l
          deferred_bios := s0.deferred_bios ++ [sector]
          gc_kicked := true })
  | some p =>
      match p.block with
      | none =>
          (read_outcome.zero_filled,
            { s0 with locked_addrs := s0.locked_addrs.erase l })
      | some _ =>
          (read_outcome.submitted
              (p.addr * s.cfg.nr_phy_in_log + sector % s.cfg.nr_phy_in_log),
            s0)

/-- Return value of `nvm_write_bio`; `bug` is the `BUG_ON(is_gc)` halt
on the path where the GC mapping failed. -/
inductive write_result where
  | success
  | deferred
  | bug
  deriving DecidableEq

/-- `nvm_write_bio`, parameterised by the result `mapping` of the
`map_ltop` vtable call (the caller holds the lock on
`l = sector / NR_PHY_IN_LOG`).  On a `NULL` mapping: `BUG_ON(is_gc)`,
unlock `l`, defer the bio, kick GC, and return `NVM_WRITE_DEFERRED`.
Otherwise copy the payload into the mapped block's staging buffer
(`nvm_bv_copy` increments `data_size`), submit the synthesized child
bio, and return `NVM_WRITE_SUCCESS`. -/
def nvm_write_bio (sector : Nat) (is_gc : Bool) (mapping : Option nvm_addr_t)
    (s : ftl_state) : write_result × ftl_state :=
  let l := sector / s.cfg.nr_phy_in_log
  match mapping with
  | none =>
      if is_gc then (write_result.bug, s)
      else
        (write_result.deferred,
          { s with
            locked_addrs := s.locked_addrs.erase l
            deferred_bios := s.deferred_bios ++ [sector]
            gc_kicked := true })
  | some p =>
      match p.block with
      | some b =>
          (write_result.success,
            { s with
              blocks := fun i =>
                if i = b then
                  { s.blocks b with data_size := (s.blocks b).data_size + 1 }
                else s.blocks i })
      | none => (write_result.success, s)

/-- The state-visible part of `nvm_endio`: unlock the logical address;
for a write, increment the block's `data_cmnt_size` and, exactly when
the incremented value reaches `nr_host_pages_in_blk`, release the
staging buffer and append the block to the back of its pool's
`prio_list`.  Device-wait pacing, the pool-serialize handoff and the
callback restoration operate on wall-clock time and bio-local fields
and carry no modelled state. -/
def nvm_endio_step (is_write : Bool) (l_addr : Nat) (bid : Nat)
    (s : ftl_state) : ftl_state :=
  let s0 := { s with locked_addrs := s.locked_addrs.erase l_addr }
  if is_write then
    let b := s0.blocks bid
    let d := b.data_cmnt_size + 1
    if d = s0.cfg.nr_host_pages_in_blk then
      { s0 with
        blocks := fun i =>
          if i = bid then { b with data_cmnt_size := d, data := false }
          else s0.blocks i
        prio_list := s0.prio_list ++ [bid] }
    else
      { s0 with
        blocks := fun i =>
          if i = bid then { b with data_cmnt_size := d } else s0.blocks i }
  else s0

/-- A state used to instantiate the map-path theorems: logical address 0
maps to physical address 3 in block 1, everything else is unwritten. -/
def Wmap : ftl_state :=
  { cfg := ⟨64, 1, 8, 2, 4, 8⟩
    blocks := fun _ => ⟨0, 0, ∅, 0, false, 0, 0, true, none⟩
    free_list := [2, 3]
    used_list := [1]
    prio_list := []
    nr_free_blocks := 2
    ap_cur := 1
    ap_gc_cur := none
    trans_map := fun m => if m = 0 then ⟨3, some 1⟩ else ⟨0, none⟩
    rev_trans_map := fun _ => ⟨rev_target.logical 0, none⟩
    locked_addrs := ∅
    deferred_bios := []
    gc_kicked := false }

/-- C2.  The claim as stated is false: with
`NR_HOST_PAGES_IN_FLASH_PAGE = 2`, allocating on a block whose cursor is
`next_page = 0`, `next_offset = 1` succeeds (it returns host page 1) and
leaves `next_offset = 2`, which is not `< NR_HOST_PAGES_IN_FLASH_PAGE`:
the saturated offset persists until the next allocation normalizes it. -/
theorem alloc_phys_next_offset_counterexample :
    (nvm_alloc_phys_addr ⟨64, 1, 8, 2, 4, 8⟩ 0
        ⟨0, 1, ∅, 0, false, 0, 0, true, some 0⟩).1 = some 1 ∧
    (nvm_alloc_phys_addr ⟨64, 1, 8, 2, 4, 8⟩ 0
        ⟨0, 1, ∅, 0, false, 0, 0, true, some 0⟩).2.next_offset = 2 ∧
    ¬ (nvm_alloc_phys_addr ⟨64, 1, 8, 2, 4, 8⟩ 0
        ⟨0, 1, ∅, 0, false, 0, 0, true, some 0⟩).2.next_offset <
      (⟨64, 1, 8, 2, 4, 8⟩ : nvmd_config).nr_host_pages_in_flash_page := by
  decide

/-- C2 (amended).  After `nvm_reset_block`, `next_offset = 0` is strictly
below `NR_HOST_PAGES_IN_FLASH_PAGE`; after any `__nvm_alloc_phys_addr`
call the cursor satisfies the weaker bound
`next_offset ≤ NR_HOST_PAGES_IN_FLASH_PAGE`; and the allocator bumps
`next_page` only when `next_offset` had saturated at
`NR_HOST_PAGES_IN_FLASH_PAGE` (it advances `next_offset` otherwise). -/
theorem alloc_phys_next_offset_bound (cfg : nvmd_config) (bid : Nat)
    (b : nvm_block) (ps : Option (Nat → Bool))
    (h0 : 0 < cfg.nr_host_pages_in_flash_page)
    (hb : b.next_offset ≤ cfg.nr_host_pages_in_flash_page) :
    (nvm_reset_block b).next_offset < cfg.nr_host_pages_in_flash_page ∧
    (__nvm_alloc_phys_addr cfg bid b ps).2.next_offset ≤
      cfg.nr_host_pages_in_flash_page ∧
    ((__nvm_alloc_phys_addr cfg bid b ps).2.next_page ≠ b.next_page →
      b.next_offset = cfg.nr_host_pages_in_flash_page) := by
  refine ⟨by simpa [nvm_reset_block] using h0, ?_⟩
  by_cases hf : block_is_full cfg b = true
  · simp [__nvm_alloc_phys_addr, hf]
    exact hb
  · by_cases hsat : b.next_offset = cfg.nr_host_pages_in_flash_page
    · cases ps with
      | none =>
          simp [__nvm_alloc_phys_addr, hf, hsat]
          exact h0
      | some f =>
          by_cases hps : f (b.next_page + 1) = true
          · simp [__nvm_alloc_phys_addr, hf, hsat, hps]
            exact h0
          · simp [__nvm_alloc_phys_addr, hf, hsat, hps]
    · have hlt : b.next_offset < cfg.nr_host_pages_in_flash_page :=
        lt_of_le_of_ne hb hsat
      simp [__nvm_alloc_phys_addr, hf, hsat]
      exact hlt

/-- C2 (amended) at a concrete input: `NR_HOST_PAGES_IN_FLASH_PAGE = 2`,
cursor `next_page = 0`, `next_offset = 1`. -/
theorem alloc_phys_next_offset_bound_witness :
    (nvm_reset_block ⟨0, 1, ∅, 0, false, 0, 0, true, some 0⟩).next_offset <
      (⟨64, 1, 8, 2, 4, 8⟩ : nvmd_config).nr_host_pages_in_flash_page ∧
    (__nvm_alloc_phys_addr ⟨64, 1, 8, 2, 4, 8⟩ 0
        ⟨0, 1, ∅, 0, false, 0, 0, true, some 0⟩ none).2.next_offset ≤
      (⟨64, 1, 8, 2, 4, 8⟩ : nvmd_config).nr_host_pages_in_flash_page :=
  ⟨(alloc_phys_next_offset_bound ⟨64, 1, 8, 2, 4, 8⟩ 0
      ⟨0, 1, ∅, 0, false, 0, 0, true, some 0⟩ none (by decide) (by decide)).1,
   (alloc_phys_next_offset_bound ⟨64, 1, 8, 2, 4, 8⟩ 0
      ⟨0, 1, ∅, 0, false, 0, 0, true, some 0⟩ none (by decide) (by decide)).2.1⟩

/-- C3.  In the scenario the claim describes — `is_gc = 1`, the current
block is full, the pool has no free block for either the non-GC or the
GC request, and `gc_cur` is also full — `nvm_alloc_addr_from_ap` does
not return NULL: it stores the NULL result of the GC block request into
`ap->gc_cur` and executes `ap->gc_cur->ap = ap` before the NULL check,
a NULL-pointer dereference.  (Concrete input: one pool with an empty
free list; blocks 0 and 1 both have `next_page = nr_pages_per_blk = 4`,
`ap->cur` is block 0 and `ap->gc_cur` block 1.) -/
theorem nvm_alloc_addr_from_ap_gc_exhausted_faults :
    (nvm_alloc_addr_from_ap true
      { cfg := ⟨64, 1, 8, 2, 4, 8⟩
        blocks := fun _ => ⟨4, 2, ∅, 0, false, 0, 0, false, some 0⟩
        free_list := []
        used_list := [0, 1]
        prio_list := []
        nr_free_blocks := 0
        ap_cur := 0
        ap_gc_cur := some 1
        trans_map := fun _ => ⟨0, none⟩
        rev_trans_map := fun _ => ⟨rev_target.poison, none⟩
        locked_addrs := ∅
        deferred_bios := []
        gc_kicked := false }).1 = ap_alloc_result.fault := by
  decide

/-- C8.  `popcount(invalid_pages) = nr_invalid_pages` is preserved by
`invalidate_block_page` when the page was not already invalid (and the
`WARN_ON` flag stays clear); re-invalidating an already-invalid page is
detected (`test_and_set_bit` reports the set bit to `WARN_ON`); and
`nvm_reset_block` re-establishes the invariant at zero. -/
theorem invalid_pages_popcount_invariant (cfg : nvmd_config) (paddr : Nat)
    (b : nvm_block) (hinv : b.invalid_pages.card = b.nr_invalid_pages) :
    (paddr % cfg.nr_host_pages_in_blk ∉ b.invalid_pages →
      (invalidate_block_page cfg paddr b).1.invalid_pages.card =
        (invalidate_block_page cfg paddr b).1.nr_invalid_pages ∧
      (invalidate_block_page cfg paddr b).2 = false) ∧
    (paddr % cfg.nr_host_pages_in_blk ∈ b.invalid_pages →
      (invalidate_block_page cfg paddr b).2 = true) ∧
    (nvm_reset_block b).invalid_pages.card =
      (nvm_reset_block b).nr_invalid_pages := by
  refine ⟨fun hmem => ?_, fun hmem => ?_, by simp [nvm_reset_block]⟩
  · simp [invalidate_block_page, hmem, Finset.card_insert_of_not_mem hmem, hinv]
  · simp [invalidate_block_page, hmem]

/-- C8 at a concrete input: block with pages `{1}` invalid and counter
`1`, `nr_host_pages_in_blk = 8`, invalidating physical address 11
(offset 3) and then re-invalidating physical address 9 (offset 1). -/
theorem invalid_pages_popcount_invariant_witness :
    ((invalidate_block_page ⟨64, 1, 8, 2, 4, 8⟩ 11
        ⟨0, 0, {1}, 1, false, 0, 0, true, none⟩).1.invalid_pages.card =
      (invalidate_block_page ⟨64, 1, 8, 2, 4, 8⟩ 11
        ⟨0, 0, {1}, 1, false, 0, 0, true, none⟩).1.nr_invalid_pages) ∧
    ((invalidate_block_page ⟨64, 1, 8, 2, 4, 8⟩ 9
        ⟨0, 0, {1}, 1, false, 0, 0, true, none⟩).2 = true) ∧
    ((nvm_reset_block ⟨0, 0, {1}, 1, false, 0, 0, true, none⟩).invalid_pages.card =
      (nvm_reset_block ⟨0, 0, {1}, 1, false, 0, 0, true, none⟩).nr_invalid_pages) :=
  ⟨((invalid_pages_popcount_invariant ⟨64, 1, 8, 2, 4, 8⟩ 11
      ⟨0, 0, {1}, 1, false, 0, 0, true, none⟩ (by decide)).1 (by decide)).1,
   (invalid_pages_popcount_invariant ⟨64, 1, 8, 2, 4, 8⟩ 9
      ⟨0, 0, {1}, 1, false, 0, 0, true, none⟩ (by decide)).2.1 (by decide),
   (invalid_pages_popcount_invariant ⟨64, 1, 8, 2, 4, 8⟩ 9
      ⟨0, 0, {1}, 1, false, 0, 0, true, none⟩ (by decide)).2.2⟩

/-- C9.  On the write completion path, `data_cmnt_size` is incremented
by one; exactly when the incremented value reaches
`nr_host_pages_in_blk` the staging buffer is released and the block is
appended to the back of the pool's `prio_list`; otherwise both are
unchanged. -/
theorem nvm_endio_write_commit_spec (l bid : Nat) (s : ftl_state) :
    ((nvm_endio_step true l bid s).blocks bid).data_cmnt_size =
      (s.blocks bid).data_cmnt_size + 1 ∧
    ((s.blocks bid).data_cmnt_size + 1 = s.cfg.nr_host_pages_in_blk →
      ((nvm_endio_step true l bid s).blocks bid).data = false ∧
      (nvm_endio_step true l bid s).prio_list = s.prio_list ++ [bid]) ∧
    ((s.blocks bid).data_cmnt_size + 1 ≠ s.cfg.nr_host_pages_in_blk →
      ((nvm_endio_step true l bid s).blocks bid).data = (s.blocks bid).data ∧
      (nvm_endio_step true l bid s).prio_list = s.prio_list) := by
  by_cases hd : (s.blocks bid).data_cmnt_size + 1 = s.cfg.nr_host_pages_in_blk
  · refine ⟨?_, fun _ => ⟨?_, ?_⟩, fun hn => absurd hd hn⟩ <;>
      simp [nvm_endio_step, hd]
  · refine ⟨?_, fun he => absurd he hd, fun _ => ⟨?_, ?_⟩⟩ <;>
      simp [nvm_endio_step, hd]

/-- C9 at a concrete input: `nr_host_pages_in_blk = 8`, block 1 has
`data_cmnt_size = 7`, so the completing write commits the block. -/
theorem nvm_endio_write_commit_spec_witness :
    ((nvm_endio_step true 0 1
        { Wmap with
          blocks := fun _ => ⟨4, 0, ∅, 0, false, 8, 7, true, some 0⟩ }).blocks
        1).data = false ∧
    (nvm_endio_step true 0 1
        { Wmap with
          blocks := fun _ => ⟨4, 0, ∅, 0, false, 8, 7, true, some 0⟩ }).prio_list =
      ({ Wmap with
          blocks := fun _ => ⟨4, 0, ∅, 0, false, 8, 7, true, some 0⟩ } :
        ftl_state).prio_list ++ [1] :=
  (nvm_endio_write_commit_spec 0 1
    { Wmap with
      blocks := fun _ => ⟨4, 0, ∅, 0, false, 8, 7, true, some 0⟩ }).2.1 (by decide)

/-- C4.  `nvm_pool_get_block` returns NULL on an empty `free_list`
(pool unchanged); returns NULL when `is_gc = 0` and
`nr_free_blocks < nr_aps` (pool unchanged); otherwise it pops the front
of `free_list`, appends it to the back of `used_list`, decrements
`nr_free_blocks`, and returns that block reset (cursors, counters,
bitmap, GC flag) with its staging buffer allocated, touching no other
block. -/
theorem nvm_pool_get_block_spec (s : ftl_state) (g : Bool) :
    (s.free_list = [] →
      (nvm_pool_get_block g s).1 = none ∧ (nvm_pool_get_block g s).2 = s) ∧
    (g = false → s.nr_free_blocks < s.cfg.nr_aps →
      (nvm_pool_get_block g s).1 = none ∧ (nvm_pool_get_block g s).2 = s) ∧
    (∀ b rest, s.free_list = b :: rest →
      (g = true ∨ s.cfg.nr_aps ≤ s.nr_free_blocks) →
      (nvm_pool_get_block g s).1 = some b ∧
      (nvm_pool_get_block g s).2.free_list = rest ∧
      (nvm_pool_get_block g s).2.used_list = s.used_list ++ [b] ∧
      (nvm_pool_get_block g s).2.nr_free_blocks = s.nr_free_blocks - 1 ∧
      (nvm_pool_get_block g s).2.blocks b =
        { nvm_reset_block (s.blocks b) with data := true } ∧
      (∀ i, i ≠ b → (nvm_pool_get_block g s).2.blocks i = s.blocks i)) := by
  refine ⟨fun hemp => ?_, fun hg hlt => ?_, fun b rest hfl hok => ?_⟩
  · simp [nvm_pool_get_block, hemp]
  · cases hfl : s.free_list with
    | nil => simp [nvm_pool_get_block, hfl]
    | cons b rest =>
        have : g = false ∧ s.nr_free_blocks < s.cfg.nr_aps := ⟨hg, hlt⟩
        simp [nvm_pool_get_block, hfl, this]
  · have hcond : ¬ (g = false ∧ s.nr_free_blocks < s.cfg.nr_aps) := by
      rcases hok with hok | hok
      · simp [hok]
      · exact fun hc => absurd hok (not_le.mpr hc.2)
    refine ⟨?_, ?_, ?_, ?_, ?_, fun i hi => ?_⟩
    · simp [nvm_pool_get_block, hfl, hcond]
    · simp [nvm_pool_get_block, hfl, hcond]
    · simp [nvm_pool_get_block, hfl, hcond]
    · simp [nvm_pool_get_block, hfl, hcond]
    · simp [nvm_pool_get_block, hfl, hcond]
    · simp [nvm_pool_get_block, hfl, hcond, hi]

/-- C4 at a concrete input: a pool with `free_list = [2, 3]`,
`nr_free_blocks = 2` and `nr_aps = 1`, non-GC request. -/
theorem nvm_pool_get_block_spec_witness :
    (nvm_pool_get_block false Wmap).1 = some 2 ∧
    (nvm_pool_get_block false Wmap).2.free_list = [3] ∧
    (nvm_pool_get_block false Wmap).2.used_list = Wmap.used_list ++ [2] ∧
    (nvm_pool_get_block false Wmap).2.nr_free_blocks = Wmap.nr_free_blocks - 1 ∧
    (nvm_pool_get_block false Wmap).2.blocks 2 =
      { nvm_reset_block (Wmap.blocks 2) with data := true } ∧
    (∀ i, i ≠ 2 → (nvm_pool_get_block false Wmap).2.blocks i = Wmap.blocks i) :=
  (nvm_pool_get_block_spec Wmap false).2.2 2 [3] rfl (Or.inr (by decide))

/-- C5.  `len(free_list) = nr_free_blocks` is preserved by
`nvm_pool_get_block` (for either `is_gc`) and by `nvm_pool_put_block`
(whose argument sits outside `free_list`, as a block lives on exactly
one of the pool's free/used lists). -/
theorem pool_free_count_invariant (s : ftl_state) (g : Bool) (b : Nat)
    (hinv : s.free_list.length = s.nr_free_blocks) :
    (nvm_pool_get_block g s).2.free_list.length =
      (nvm_pool_get_block g s).2.nr_free_blocks ∧
    (b ∉ s.free_list →
      (nvm_pool_put_block b s).free_list.length =
        (nvm_pool_put_block b s).nr_free_blocks) := by
  constructor
  · cases hfl : s.free_list with
    | nil => simp [nvm_pool_get_block, hfl, hfl ▸ hinv]
    | cons b0 rest =>
        have hlen : rest.length + 1 = s.nr_free_blocks := by
          simpa [hfl] using hinv
        by_cases hc : g = false ∧ s.nr_free_blocks < s.cfg.nr_aps
        · simp [nvm_pool_get_block, hfl, hc, hfl ▸ hinv]
        · simp [nvm_pool_get_block, hfl, hc]
          omega
  · intro hb
    simp [nvm_pool_put_block, List.erase_of_not_mem hb, hinv]

/-- C5 at a concrete input: the pool of `Wmap` with `free_list = [2, 3]`
and `nr_free_blocks = 2`; block 1 (on `used_list`) is put back. -/
theorem pool_free_count_invariant_witness :
    (nvm_pool_get_block true Wmap).2.free_list.length =
      (nvm_pool_get_block true Wmap).2.nr_free_blocks ∧
    (nvm_pool_put_block 1 Wmap).free_list.length =
      (nvm_pool_put_block 1 Wmap).nr_free_blocks :=
  ⟨(pool_free_count_invariant Wmap true 1 (by decide)).1,
   (pool_free_count_invariant Wmap true 1 (by decide)).2 (by decide)⟩

/-- C1.  When `nvm_update_map(l, p, is_gc, map)` overwrites a previous
forward entry `(l → p₀, b₀)` — the page `p₀` being live, i.e. its bit
not yet set in `b₀`'s bitmap, and the new address distinct from `p₀` —
then afterwards `b₀`'s bitmap is the old bitmap with exactly the one
extra bit `p₀ mod nr_host_pages_in_blk` (its cardinality grows by one),
the reverse entry of `p₀` is poisoned, the forward entry of `l` is
`{p.addr, p.block}`, and the reverse entry of `p.addr` points back to
`l` tagged with the updated map's identity. -/
theorem nvm_update_map_overwrite_spec (l : Nat) (p : nvm_addr_t)
    (tag : Option Nat) (s : ftl_state) (b0 : Nat)
    (hb : (s.trans_map l).block = some b0)
    (hbit : (s.trans_map l).addr % s.cfg.nr_host_pages_in_blk ∉
      (s.blocks b0).invalid_pages)
    (hne : p.addr ≠ (s.trans_map l).addr) :
    ((nvm_update_map l p tag s).blocks b0).invalid_pages =
      insert ((s.trans_map l).addr % s.cfg.nr_host_pages_in_blk)
        ((s.blocks b0).invalid_pages) ∧
    ((nvm_update_map l p tag s).blocks b0).invalid_pages.card =
      (s.blocks b0).invalid_pages.card + 1 ∧
    ((nvm_update_map l p tag s).rev_trans_map (s.trans_map l).addr).addr =
      rev_target.poison ∧
    (nvm_update_map l p tag s).trans_map l = ⟨p.addr, p.block⟩ ∧
    ((nvm_update_map l p tag s).rev_trans_map p.addr).addr =
      rev_target.logical l ∧
    ((nvm_update_map l p tag s).rev_trans_map p.addr).trans_map_tag = tag := by
  refine ⟨?_, ?_, ?_, ?_, ?_, ?_⟩ <;>
    simp [nvm_update_map, hb, invalidate_block_page, Ne.symm hne,
      Finset.card_insert_of_not_mem hbit]

/-- C1 at a concrete input: `Wmap` maps logical 0 to physical 3 in
block 1; the new address is physical 9 in block 2, map tag 5. -/
theorem nvm_update_map_overwrite_spec_witness :
    ((nvm_update_map 0 ⟨9, some 2⟩ (some 5) Wmap).blocks 1).invalid_pages =
      insert ((Wmap.trans_map 0).addr % Wmap.cfg.nr_host_pages_in_blk)
        ((Wmap.blocks 1).invalid_pages) ∧
    ((nvm_update_map 0 ⟨9, some 2⟩ (some 5) Wmap).blocks 1).invalid_pages.card =
      (Wmap.blocks 1).invalid_pages.card + 1 ∧
    ((nvm_update_map 0 ⟨9, some 2⟩ (some 5) Wmap).rev_trans_map
        (Wmap.trans_map 0).addr).addr = rev_target.poison ∧
    (nvm_update_map 0 ⟨9, some 2⟩ (some 5) Wmap).trans_map 0 = ⟨9, some 2⟩ ∧
    ((nvm_update_map 0 ⟨9, some 2⟩ (some 5) Wmap).rev_trans_map 9).addr =
      rev_target.logical 0 ∧
    ((nvm_update_map 0 ⟨9, some 2⟩ (some 5) Wmap).rev_trans_map 9).trans_map_tag =
      some 5 :=
  nvm_update_map_overwrite_spec 0 ⟨9, some 2⟩ (some 5) Wmap 1 (by decide)
    (by decide) (by decide)

/-- C10.  When `nvm_update_map(l, p, is_gc, map)` finds no block in the
previous forward entry (the logical address was never written), no
block changes (so no bitmap and no invalid counter moves), the pool
lists and counter are untouched, every reverse entry other than
`p.addr`'s is untouched (in particular none becomes poisoned), every
forward entry other than `l`'s is untouched, and the only writes are
the forward entry of `l` and the reverse entry of `p.addr`. -/
theorem nvm_update_map_fresh_frame (l : Nat) (p : nvm_addr_t)
    (tag : Option Nat) (s : ftl_state)
    (hb : (s.trans_map l).block = none) :
    (nvm_update_map l p tag s).blocks = s.blocks ∧
    (nvm_update_map l p tag s).free_list = s.free_list ∧
    (nvm_update_map l p tag s).used_list = s.used_list ∧
    (nvm_update_map l p tag s).prio_list = s.prio_list ∧
    (nvm_update_map l p tag s).nr_free_blocks = s.nr_free_blocks ∧
    (∀ a, a ≠ p.addr →
      (nvm_update_map l p tag s).rev_trans_map a = s.rev_trans_map a) ∧
    (∀ m, m ≠ l →
      (nvm_update_map l p tag s).trans_map m = s.trans_map m) ∧
    (nvm_update_map l p tag s).trans_map l = ⟨p.addr, p.block⟩ ∧
    (nvm_update_map l p tag s).rev_trans_map p.addr =
      ⟨rev_target.logical l, tag⟩ ∧
    (∀ a, ((nvm_update_map l p tag s).rev_trans_map a).addr =
        rev_target.poison →
      (s.rev_trans_map a).addr = rev_target.poison) := by
  have hfr : ∀ a, a ≠ p.addr →
      (nvm_update_map l p tag s).rev_trans_map a = s.rev_trans_map a := by
    intro a ha
    simp [nvm_update_map, hb, ha]
  refine ⟨?_, ?_, ?_, ?_, ?_, hfr, fun m hm => ?_, ?_, ?_, fun a hpo => ?_⟩
  · simp [nvm_update_map, hb]
  · simp [nvm_update_map, hb]
  · simp [nvm_update_map, hb]
  · simp [nvm_update_map, hb]
  · simp [nvm_update_map, hb]
  · simp [nvm_update_map, hb, hm]
  · simp [nvm_update_map, hb]
  · simp [nvm_update_map, hb]
  · by_cases hap : a = p.addr
    · subst hap
      simp [nvm_update_map, hb] at hpo
    · rw [hfr a hap] at hpo
      exact hpo

/-- C10 at a concrete input: logical 2 has never been written in
`Wmap`; the new mapping is physical 9 in block 2, map tag 5. -/
theorem nvm_update_map_fresh_frame_witness :
    (nvm_update_map 2 ⟨9, some 2⟩ (some 5) Wmap).blocks = Wmap.blocks ∧
    (nvm_update_map 2 ⟨9, some 2⟩ (some 5) Wmap).free_list = Wmap.free_list ∧
    (nvm_update_map 2 ⟨9, some 2⟩ (some 5) Wmap).trans_map 2 = ⟨9, some 2⟩ ∧
    (nvm_update_map 2 ⟨9, some 2⟩ (some 5) Wmap).rev_trans_map 9 =
      ⟨rev_target.logical 2, some 5⟩ :=
  ⟨(nvm_update_map_fresh_frame 2 ⟨9, some 2⟩ (some 5) Wmap (by decide)).1,
   (nvm_update_map_fresh_frame 2 ⟨9, some 2⟩ (some 5) Wmap (by decide)).2.1,
   (nvm_update_map_fresh_frame 2 ⟨9, some 2⟩ (some 5) Wmap
      (by decide)).2.2.2.2.2.2.2.1,
   (nvm_update_map_fresh_frame 2 ⟨9, some 2⟩ (some 5) Wmap
      (by decide)).2.2.2.2.2.2.2.2.1⟩

/-- C6.  On every call that does not trip `BUG_ON(is_gc)` (the caller
contract: GC mappings are asserted to succeed), `nvm_write_bio` returns
`NVM_WRITE_SUCCESS` or `NVM_WRITE_DEFERRED`; on a NULL mapping it
unlocks the logical address, appends the bio to the deferred queue,
kicks GC and returns `NVM_WRITE_DEFERRED`; on a non-NULL mapping it
returns `NVM_WRITE_SUCCESS`. -/
theorem nvm_write_bio_result_spec (sector : Nat) (is_gc : Bool)
    (mapping : Option nvm_addr_t) (s : ftl_state)
    (h : is_gc = false ∨ mapping ≠ none) :
    ((nvm_write_bio sector is_gc mapping s).1 = write_result.success ∨
      (nvm_write_bio sector is_gc mapping s).1 = write_result.deferred) ∧
    (mapping = none →
      (nvm_write_bio sector is_gc mapping s).1 = write_result.deferred ∧
      (nvm_write_bio sector is_gc mapping s).2.locked_addrs =
        s.locked_addrs.erase (sector / s.cfg.nr_phy_in_log) ∧
      (nvm_write_bio sector is_gc mapping s).2.deferred_bios =
        s.deferred_bios ++ [sector] ∧
      (nvm_write_bio sector is_gc mapping s).2.gc_kicked = true) ∧
    (mapping ≠ none →
      (nvm_write_bio sector is_gc mapping s).1 = write_result.success) := by
  cases mapping with
  | none =>
      rcases h with h | h
      · subst h
        exact ⟨Or.inr rfl, fun _ => ⟨rfl, rfl, rfl, rfl⟩,
          fun hn => absurd rfl hn⟩
      · exact absurd rfl h
  | some p =>
      have h1 : (nvm_write_bio sector is_gc (some p) s).1 =
          write_result.success := by
        cases hp : p.block <;> simp [nvm_write_bio, hp]
      exact ⟨Or.inl h1, fun hn => Option.noConfusion hn, fun _ => h1⟩

/-- C6 at a concrete input: sector 17 (`NR_PHY_IN_LOG = 8`, logical
address 2), non-GC, NULL mapping, on `Wmap`. -/
theorem nvm_write_bio_result_spec_witness :
    (nvm_write_bio 17 false none Wmap).1 = write_result.deferred ∧
    (nvm_write_bio 17 false none Wmap).2.deferred_bios =
      Wmap.deferred_bios ++ [17] ∧
    (nvm_write_bio 17 false none Wmap).2.gc_kicked = true :=
  ⟨((nvm_write_bio_result_spec 17 false none Wmap (Or.inl rfl)).2.1 rfl).1,
   ((nvm_write_bio_result_spec 17 false none Wmap (Or.inl rfl)).2.1 rfl).2.2.1,
   ((nvm_write_bio_result_spec 17 false none Wmap (Or.inl rfl)).2.1 rfl).2.2.2⟩

/-- C7.  A read whose lookup succeeds with no recorded block (the
logical address was never written) is zero-filled and completed, and
the whole state is left exactly as before the call: the address lock
taken at entry is released, no block is consumed, and no translation
entry changes. -/
theorem nvm_read_bio_unwritten_spec (sector : Nat) (s : ftl_state)
    (hb : (s.trans_map (sector / s.cfg.nr_phy_in_log)).block = none)
    (hl : sector / s.cfg.nr_phy_in_log ∉ s.locked_addrs) :
    (nvm_read_bio sector s).1 = read_outcome.zero_filled ∧
    (nvm_read_bio sector s).2 = s := by
  constructor <;>
    simp [nvm_read_bio, nvm_lookup_ltop_map, hb, Finset.erase_insert hl]

/-- C7 at a concrete input: sector 17 (`NR_PHY_IN_LOG = 8`, logical
address 2, never written in `Wmap`, which holds no address locks). -/
theorem nvm_read_bio_unwritten_spec_witness :
    (nvm_read_bio 17 Wmap).1 = read_outcome.zero_filled ∧
    (nvm_read_bio 17 Wmap).2 = Wmap :=
  nvm_read_bio_unwritten_spec 17 Wmap (by decide) (by decide)

end LightNVM
